import Mathlib

/-!
Verification of the annotation-state core of the SLR data-extraction tool
(`data-extraction-gui.py`): the export/import codec for escape options,
merge-on-write export, the completeness validator, the resume scan, the
session marker, and the finish-paper gating.

Python strings are modelled as lists of characters (`Str`), Python dicts as
insertion-ordered association lists, and file contents as optional values
(`none` = missing or unreadable/malformed, matching the uniform
`except (json.JSONDecodeError, IOError)` fallbacks in the source).
-/

set_option synthInstance.maxSize 5000
set_option autoImplicit false

namespace SlrTool

/-- Python `str`, modelled as a list of characters. Slicing `s[n:]` is
`List.drop n`, `s.startswith(p)` is `p.isPrefixOf s`, truthiness is `≠ []`. -/
abbrev Str := List Char

/-- The synthetic option label `"Other"`. -/
def otherLabel : Str := "Other".toList

/-- The synthetic option label `"Discussion needed"`. -/
def discussionLabel : Str := "Discussion needed".toList

/-- The escape marker `"Other: "` (length 7) used by the codec. -/
def otherTag : Str := "Other: ".toList

/-- The escape marker `"Discussion needed: "` (length 19) used by the codec. -/
def discussionTag : Str := "Discussion needed: ".toList

/-- Python `str.strip()`: remove whitespace from both ends. -/
def pyStrip (s : Str) : Str :=
  ((s.dropWhile Char.isWhitespace).reverse.dropWhile Char.isWhitespace).reverse

/-- The `Handle "Other" option` block of `_perform_export` (lines 2103-2113):
if `"Other"` is selected and the tracked other-text is truthy (non-empty),
the bare `"Other"` entry is removed and `"Other: " + text` is appended. -/
def encodeOtherStep (sels : List Str) (ot : Str) : List Str :=
  if otherLabel ∈ sels ∧ ot ≠ [] then
    sels.erase otherLabel ++ [otherTag ++ ot]
  else sels

/-- The `Handle "Discussion needed" option` block of `_perform_export`
(lines 2115-2131): if `"Discussion needed"` is selected and the resolved
discussion text (`dt`, an `Option` because `dict.get` may return `None`) is
truthy, the bare label is removed and `"Discussion needed: " + text` is
appended. -/
def encodeDiscussionStep (sels : List Str) (dt : Option Str) : List Str :=
  if discussionLabel ∈ sels ∧ dt.getD [] ≠ [] then
    sels.erase discussionLabel ++ [discussionTag ++ dt.getD []]
  else sels

/-- Encoding of one attribute's selection list, from `_perform_export`
(lines 2099-2135): the `"Other"` block runs first, then the
`"Discussion needed"` block on its result. -/
def encodeSelections (sels : List Str) (ot : Str) (dt : Option Str) : List Str :=
  encodeDiscussionStep (encodeOtherStep sels ot) dt

/-- The in-memory state reconstructed for one attribute by
`_load_paper_progress`: the selection list, the tracked other-text
(initialised to `""`), and the discussion text (absent until a
`"Discussion needed: "` entry is decoded). -/
structure DecodedAttr where
  selections : List Str
  otherText : Str
  discussionText : Option Str
deriving DecidableEq

/-- One step of the decode loop in `_load_paper_progress` (lines 744-777):
a persisted option string with marker `"Other: "` restores the selection
`"Other"` and sets the other-text to `selection[7:]`; one with marker
`"Discussion needed: "` restores `"Discussion needed"` and sets the
discussion text to `selection[19:]`; anything else passes through. -/
def decodeStep (acc : DecodedAttr) (s : Str) : DecodedAttr :=
  if otherTag.isPrefixOf s then
    { acc with selections := acc.selections ++ [otherLabel], otherText := s.drop 7 }
  else if discussionTag.isPrefixOf s then
    { acc with
      selections := acc.selections ++ [discussionLabel]
      discussionText := some (s.drop 19) }
  else
    { acc with selections := acc.selections ++ [s] }

/-- Decoding of one attribute's persisted selection list
(`_load_paper_progress`, lines 738-777). -/
def decodeSelections (ss : List Str) : DecodedAttr :=
  ss.foldl decodeStep ⟨[], [], none⟩

/-- An insertion-ordered association list, modelling a Python `dict` with
string keys (Python dicts preserve insertion order). -/
abbrev AL (α : Type) := List (String × α)

/-- Python `d.get(k)` / `d[k]` on an association list. -/
def alookup {α : Type} (k : String) : AL α → Option α
  | [] => none
  | p :: rest => if p.1 = k then some p.2 else alookup k rest

/-- Python `k in d`. -/
def containsKey {α : Type} (k : String) (m : AL α) : Bool :=
  (alookup k m).isSome

/-- Python `d[k] = v`: replace the value in place when the key exists
(keeping its position), otherwise append a new entry. -/
def upsertA {α : Type} (m : AL α) (k : String) (v : α) : AL α :=
  if containsKey k m then m.map (fun p => if p.1 = k then (k, v) else p)
  else m ++ [(k, v)]

/-- The source's two-level dict insertion pattern
(`if qk not in out: out[qk] = {}` followed by `out[qk][attr] = v`). -/
def setNested {α : Type} (m : AL (AL α)) (k1 k2 : String) (v : α) : AL (AL α) :=
  if containsKey k1 m then
    m.map (fun p => if p.1 = k1 then (k1, upsertA p.2 k2 v) else p)
  else m ++ [(k1, [(k2, v)])]

/-- Three-level chained lookup `d.get(k1, {}).get(k2, {}).get(k3)`. -/
def alookup3 {α : Type} (k1 k2 k3 : String) (m : AL (AL (AL α))) : Option α :=
  ((alookup k1 m).bind (alookup k2)).bind (alookup k3)

/-- Paper metadata snapshot (`self.papers[entry_key]`, from the CSV). -/
structure PaperMeta where
  title : String
  authors : String
  year : String
deriving DecidableEq

/-- A persisted toggle entry: the encoder only ever writes
`{"enabled": True, "text": text}` (disabled toggles are omitted). -/
structure ToggleVal where
  enabled : Bool
  text : Str
deriving DecidableEq

/-- One paper's record in the persisted `export.json` store, as written by
`_perform_export` (lines 2083-2166). The optional `toggle_states` /
`mandatory_texts` keys are omitted (`none`) when their dicts are empty. -/
structure PaperRecord where
  paper : PaperMeta
  excluded_from_full_text_review : Bool
  exclusion_reason : Str
  responses : AL (AL (List Str))
  toggle_states : Option (AL (AL ToggleVal))
  mandatory_texts : Option (AL (AL Str))
deriving DecidableEq

/-- The persisted store: top-level JSON object keyed by paper keys. -/
abbrev Store := AL PaperRecord

/-- The `{}` default used for `exported.get(entry_key, {})` in
`finish_paper`: an empty JSON object read as a record through the
source's `.get(..., default)` accesses. -/
def emptyRecord : PaperRecord :=
  ⟨⟨"Unknown", "Unknown", "Unknown"⟩, false, [], [], none, none⟩

/-- The in-memory state of `DataExtractionGUI` relevant to the core
(response store, escape texts, toggle and mandatory texts, exclusion
flags, paper list and position). `discussion_text_inputs` maps a
discussion key to the text of the live `QLineEdit` mirror; an absent key
models an absent widget. -/
structure GuiState where
  papers : AL PaperMeta
  paper_keys : List String
  current_paper_index : Nat
  selected_values : AL (AL (AL (List Str)))
  selected_Other_text : AL (AL (AL Str))
  discussion_texts : AL Str
  discussion_text_inputs : AL Str
  toggle_states : AL (AL (AL Bool))
  toggle_texts : AL (AL (AL Str))
  mandatory_texts : AL (AL (AL Str))
  excluded_papers : AL Bool
  excluded_reasons : AL Str
deriving DecidableEq

/-- The composite key `f"{entry_key}_{question_key}_{attribute}_discussion"`
used for the discussion-text dictionaries. -/
def discussionKey (e q a : String) : String :=
  e ++ "_" ++ q ++ "_" ++ a ++ "_discussion"

/-- Resolution of the discussion text in `_perform_export` (lines
2117-2126): take the tracked value; if it is `None` or `""` and the live
text-input widget exists, fall back to the widget's text. -/
def resolveDiscussionText (g : GuiState) (e q a : String) : Option Str :=
  let key := discussionKey e q a
  let stored := alookup key g.discussion_texts
  if (stored = none ∨ stored = some []) ∧ (alookup key g.discussion_text_inputs).isSome
  then alookup key g.discussion_text_inputs
  else stored

/-- The tracked other-text `self.selected_Other_text[entry][question][attr]`
(initialised to `""` alongside every selection list). -/
def otherTextOf (g : GuiState) (e q a : String) : Str :=
  (alookup3 e q a g.selected_Other_text).getD []

/-- The `responses` object written for one paper by `_perform_export`
(lines 2096-2135): every tracked selection list, encoded. -/
def encodeResponses (g : GuiState) (e : String) (inner : AL (AL (List Str))) :
    AL (AL (List Str)) :=
  inner.map (fun qp => (qp.1, qp.2.map (fun ap =>
    (ap.1, encodeSelections ap.2 (otherTextOf g e qp.1 ap.1)
      (resolveDiscussionText g e qp.1 ap.1)))))

/-- The `toggle_states` object written for one paper (lines 2137-2153):
only enabled toggles are emitted, each as `{"enabled": True, "text": t}`. -/
def buildToggleOut (g : GuiState) (e : String) : AL (AL ToggleVal) :=
  match alookup e g.toggle_states with
  | none => []
  | some qs => qs.foldl (fun acc qp => qp.2.foldl (fun acc2 ap =>
      if ap.2 then
        setNested acc2 qp.1 ap.1
          ⟨true, (alookup3 e qp.1 ap.1 g.toggle_texts).getD []⟩
      else acc2) acc) []

/-- The `mandatory_texts` object written for one paper (lines 2155-2166):
only texts that are non-empty after `strip()` are emitted (unstripped). -/
def buildMandatoryOut (g : GuiState) (e : String) : AL (AL Str) :=
  match alookup e g.mandatory_texts with
  | none => []
  | some qs => qs.foldl (fun acc qp => qp.2.foldl (fun acc2 ap =>
      if pyStrip ap.2 ≠ [] then setNested acc2 qp.1 ap.1 ap.2
      else acc2) acc) []

/-- The full record written for one in-memory paper by `_perform_export`
(lines 2081-2166). -/
def encodePaper (g : GuiState) (e : String) (inner : AL (AL (List Str))) :
    PaperRecord :=
  { paper := (alookup e g.papers).getD ⟨"Unknown", "Unknown", "Unknown"⟩
    excluded_from_full_text_review := (alookup e g.excluded_papers).getD false
    exclusion_reason := (alookup e g.excluded_reasons).getD []
    responses := encodeResponses g e inner
    toggle_states :=
      if buildToggleOut g e ≠ [] then some (buildToggleOut g e) else none
    mandatory_texts :=
      if buildMandatoryOut g e ≠ [] then some (buildMandatoryOut g e) else none }

/-- The merge-on-write export of `_perform_export` (lines 2067-2169):
start from the existing store read from disk (`none` models a missing or
malformed file, handled as an empty store), then overwrite every paper
key present in the in-memory `selected_values`. -/
def performExport (existing : Option Store) (g : GuiState) : Store :=
  g.selected_values.foldl (fun out p => upsertA out p.1 (encodePaper g p.1 p.2))
    (existing.getD [])

/-- The `mandatory_text_field` configuration of a schema attribute
(`{"enabled": bool, "label": str, ...}`); `label` is `none` when the key
is absent (the source then falls back to `"Additional information"`). -/
structure MandatoryCfg where
  enabled : Bool
  label : Option Str
deriving DecidableEq

/-- A schema attribute value: either a plain option list (legacy shape) or
a dict carrying an option list plus an optional `mandatory_text_field`
configuration (the `isinstance(options, dict)` branch of the validator). -/
inductive AttrSpec where
  | plain (options : List Str)
  | configured (options : List Str) (mandatory : Option MandatoryCfg)
deriving DecidableEq

/-- The loaded `data-items.json` schema: question key → attribute → spec. -/
abbrev Schema := AL (AL AttrSpec)

/-- The default mandatory-field label `"Additional information"`. -/
def defaultMandatoryLabel : Str := "Additional information".toList

/-- A completeness violation, as surfaced by one of the three warning
dialogs of `validate_all_required_fields` (the source shows the dialog
identifying the question/attribute and returns `False`). -/
inductive Violation where
  | MissingSelection (q a : String)
  | MissingDiscussionText (q a : String)
  | MissingMandatoryText (q a : String) (label : Str)
deriving DecidableEq

/-- Rule 2 of `validate_all_required_fields` (lines 896-912): when
`Discussion needed` is selected, and the live discussion text input
exists, its text stripped of whitespace must be non-empty. -/
def discussionViolation (g : GuiState) (e q a : String) (selections : List Str) :
    Option Violation :=
  if discussionLabel ∈ selections then
    match alookup (discussionKey e q a) g.discussion_text_inputs with
    | some t => if pyStrip t = [] then some (.MissingDiscussionText q a) else none
    | none => none
  else none

/-- Rule 3 of `validate_all_required_fields` (lines 914-939): when the
attribute's schema value is a dict with an enabled `mandatory_text_field`,
the tracked mandatory text stripped of whitespace must be non-empty. -/
def mandatoryViolation (g : GuiState) (e q a : String) (spec : AttrSpec) :
    Option Violation :=
  match spec with
  | .configured _ (some cfg) =>
    if cfg.enabled then
      if pyStrip ((alookup3 e q a g.mandatory_texts).getD []) = [] then
        some (.MissingMandatoryText q a (cfg.label.getD defaultMandatoryLabel))
      else none
    else none
  | _ => none

/-- The per-(question, attribute) body of the loop in
`validate_all_required_fields` (lines 875-939): empty-selection check,
then the discussion-text check, then the mandatory-text check, stopping
at the first failure. `some v` means the source shows the dialog for `v`
and returns `False`. -/
def checkPair (g : GuiState) (e q a : String) (spec : AttrSpec) : Option Violation :=
  let selections := (alookup3 e q a g.selected_values).getD []
  if selections = [] then some (.MissingSelection q a)
  else
    match discussionViolation g e q a selections with
    | some v => some v
    | none => mandatoryViolation g e q a spec

/-- Inner attribute loop of `validate_all_required_fields`: first failing
attribute wins (the source returns `False` inside the loop). -/
def attrScan (g : GuiState) (e q : String) : AL AttrSpec → Option Violation
  | [] => none
  | (a, sp) :: rest =>
    match checkPair g e q a sp with
    | some v => some v
    | none => attrScan g e q rest

/-- Outer question loop of `validate_all_required_fields`. -/
def questionScan (g : GuiState) (e : String) : Schema → Option Violation
  | [] => none
  | (q, attrs) :: rest =>
    match attrScan g e q attrs with
    | some v => some v
    | none => questionScan g e rest

/-- `validate_all_required_fields` (lines 856-941): returns `True`
immediately when the paper is excluded; otherwise scans all
(question, attribute) pairs in schema order and returns `False` at the
first violation. `none` models the `True` return; `some v` models the
`False` return after showing the dialog for `v`. -/
def validateAll (g : GuiState) (schema : Schema) (e : String) : Option Violation :=
  if (alookup e g.excluded_papers).getD false then none
  else questionScan g e schema

/-- Modelled from the spec (§4.3): the violations of a single
(question, attribute) pair with every rule evaluated independently, in
rule order. The individual rule conditions are the ones the code
implements; only the collecting (non-short-circuiting) semantics comes
from the spec's words. -/
def pairViolations (g : GuiState) (e q a : String) (spec : AttrSpec) : List Violation :=
  let selections := (alookup3 e q a g.selected_values).getD []
  (if selections = [] then [Violation.MissingSelection q a] else []) ++
  (discussionViolation g e q a selections).toList ++
  (if selections ≠ [] then (mandatoryViolation g e q a spec).toList else [])

/-- Modelled from the spec (§4.3): a validator that collects the full
list of violations over all (question, attribute) pairs in schema order
instead of stopping at the first one, returning `[]` for excluded papers. -/
def collectAllViolations (g : GuiState) (schema : Schema) (e : String) : List Violation :=
  if (alookup e g.excluded_papers).getD false then []
  else schema.flatMap (fun qp => qp.2.flatMap (fun ap => pairViolations g e qp.1 ap.1 ap.2))

/-- Typing into the discussion-text `QLineEdit` for `key`: the live
widget-text map gains (or replaces) that entry. -/
def setDiscussionInput (g : GuiState) (key : String) (t : Str) : GuiState :=
  { g with discussion_text_inputs := upsertA g.discussion_text_inputs key t }

/-- The `.session.json` contents. `current_paper_index` is `none` when the
key is absent from the JSON object (the read side checks
`"current_paper_index" in session_data`); `current_paper_key` is `none`
for JSON `null`. -/
structure SessionJson where
  user : String
  current_paper_index : Option Int
  current_paper_key : Option String
deriving DecidableEq

/-- The session fast path of `find_first_unprocessed_paper` (lines
300-314): resume at the stored index iff the session file is readable,
belongs to the current user, has a `current_paper_index` key, and that
index is in range; any failure falls through (`none`). -/
def sessionResume (user : String) (n : Nat) (sess : Option SessionJson) : Option Nat :=
  match sess with
  | none => none
  | some sd =>
    if sd.user = user then
      match sd.current_paper_index with
      | some i => if 0 ≤ i ∧ i < (n : Int) then some i.toNat else none
      | none => none
    else none

/-- The emptiness test of the resume scan (lines 342-350): a paper's
responses are empty when no attribute list contains a selection. -/
def isEmptyResponses (responses : AL (AL (List Str))) : Bool :=
  !(responses.any (fun qp => qp.2.any (fun ap => !ap.2.isEmpty)))

/-- The per-paper scan loop of `find_first_unprocessed_paper` (lines
327-356): absent from the store → unprocessed; excluded → skip; all
responses empty → unprocessed; otherwise (real data) → skip. Returns the
list length when every paper is processed. -/
def scanPapers (store : Store) : List String → Nat
  | [] => 0
  | k :: rest =>
    match alookup k store with
    | none => 0
    | some pd =>
      if pd.excluded_from_full_text_review then 1 + scanPapers store rest
      else if isEmptyResponses pd.responses then 0
      else 1 + scanPapers store rest

/-- `find_first_unprocessed_paper` (lines 285-356): session fast path,
then `0` when no export file exists (or it is unreadable), then the scan. -/
def findFirstUnprocessedPaper (user : String) (keys : List String)
    (sess : Option SessionJson) (store : Option Store) : Nat :=
  match sessionResume user keys.length sess with
  | some i => i
  | none =>
    match store with
    | none => 0
    | some s => scanPapers s keys

/-- Restatement of the spec's resume rule (§4.4 step 3) for one paper:
it is the resume target iff it is absent from the store, or present,
not excluded, and with every selection list empty. -/
def unprocessedSpec (store : Store) (k : String) : Bool :=
  match alookup k store with
  | none => true
  | some pd => !pd.excluded_from_full_text_review && isEmptyResponses pd.responses

/-- `_save_session_state` (lines 779-795) acting on the session file:
builds `{user, current_paper_index, current_paper_key}` (the key is the
current paper's, or `null` when the index is not below the list length)
and writes it; an `IOError` (`ioError = true`) is caught and swallowed,
leaving the file as it was. The return type carries no error: the
function always returns normally. -/
def saveSessionState (fileBefore : Option SessionJson) (user : String)
    (keys : List String) (idx : Nat) (ioError : Bool) : Option SessionJson :=
  let data : SessionJson := ⟨user, some (idx : Int), keys[idx]?⟩
  if ioError then fileBefore else some data

/-- Outcome of `load_paper` as far as control flow is concerned. -/
inductive LoadResult where
  | allComplete
  | loaded (index : Nat)
deriving DecidableEq

/-- The session-relevant skeleton of `load_paper` (lines 575-665): an
out-of-range index shows the completion dialog and returns without
saving; otherwise the paper is loaded and `_save_session_state` runs at
the end. -/
def loadPaperSession (keys : List String) (user : String) (index : Nat)
    (fileBefore : Option SessionJson) (ioError : Bool) :
    LoadResult × Option SessionJson :=
  if keys.length ≤ index then (.allComplete, fileBefore)
  else (.loaded index, saveSessionState fileBefore user keys index ioError)

/-- Outcome of `finish_paper`. -/
inductive FinishResult where
  | advanced (newIndex : Nat)
  | blockedValidation
  | blockedSanity (violations : List String)
  | sanityError (msg : String)
deriving DecidableEq

/-- `self.paper_keys[self.current_paper_index]` (assumed in range by the
source; out of range would raise `IndexError`). -/
def currentEntry (g : GuiState) : String :=
  g.paper_keys.getD g.current_paper_index ""

/-- `finish_paper` (lines 797-854): an excluded paper advances
immediately; a validation failure blocks; otherwise the store is
exported and re-read (modelled as reading back the freshly written
store), the external sanity-check collaborator runs on the paper's
record, an exception blocks with an error dialog, a non-empty violation
list blocks with a warning, and only an empty list advances. -/
def finishPaper (g : GuiState) (schema : Schema) (existing : Option Store)
    (sanity : PaperRecord → Except String (List String)) : FinishResult :=
  let e := currentEntry g
  if (alookup e g.excluded_papers).getD false then
    .advanced (g.current_paper_index + 1)
  else if (validateAll g schema e).isSome then .blockedValidation
  else
    let paperEntry := (alookup e (performExport existing g)).getD emptyRecord
    match sanity paperEntry with
    | .error msg => .sanityError msg
    | .ok vs => if vs ≠ [] then .blockedSanity vs else .advanced (g.current_paper_index + 1)

/-- Outcome of the store-file write in `_perform_export` (lines
2168-2174). `ioErrorAfter n` models an I/O error raised once `n`
characters of the serialized store are on disk. -/
inductive WriteOutcome where
  | success
  | ioErrorAfter (n : Nat)
deriving DecidableEq

/-- The write `open("export.json", "w"); json.dump(output, f)`: Python's
`"w"` mode truncates the file immediately, then the serialization is
written in place; an I/O error mid-write leaves exactly the prefix
written so far, and the surrounding `except` handler shows an error
dialog and returns `False`. Result: (store file afterwards, return
value of `_perform_export`). -/
def runExportWrite (prior : Option Str) (content : Str) (o : WriteOutcome) :
    Option Str × Bool :=
  match o with
  | .success => (some content, true)
  | .ioErrorAfter n => (some (content.take n), false)

/-! ### Concrete states used by witnesses and counterexamples -/

/-- A `DataExtractionGUI` state with every dictionary empty. -/
def baseGui : GuiState := ⟨[], [], 0, [], [], [], [], [], [], [], [], []⟩

/-- A schema with one question and two attributes. -/
def schemaA1A2 : Schema := [("RQ1", [("A1", .plain []), ("A2", .plain [])])]

/-- A schema with one question and one attribute. -/
def schemaA1 : Schema := [("RQ1", [("A1", .plain [])])]

/-- In-memory state with only paper "A" loaded. -/
def c2memGui : GuiState := { baseGui with
  papers := [("A", ⟨"Paper A", "Author A", "2024"⟩)]
  paper_keys := ["A", "B"]
  selected_values := [("A", [("RQ1", [("Cat", ["Option A".toList])])])]
  selected_Other_text := [("A", [("RQ1", [("Cat", [])])])] }

/-- A persisted record for the untouched paper "B". -/
def c2recB : PaperRecord := { emptyRecord with
  paper := ⟨"Paper B", "Author B", "2023"⟩
  responses := [("RQ1", [("Cat", ["Option B".toList])])] }

/-- Non-excluded state where attribute A1 has `Discussion needed` selected
with an empty live text input, and attribute A2 has an empty selection
list. -/
def c3gui : GuiState := { baseGui with
  paper_keys := ["P1"]
  selected_values := [("P1", [("RQ1", [("A1", [discussionLabel]), ("A2", [])])])]
  discussion_text_inputs := [(discussionKey "P1" "RQ1" "A1", [])] }

/-- Non-excluded state with a single empty attribute. -/
def c3wGui : GuiState := { baseGui with
  paper_keys := ["P1"]
  selected_values := [("P1", [("RQ1", [("A1", [])])])] }

/-- An excluded paper with an empty attribute. -/
def c3exGui : GuiState := { baseGui with
  paper_keys := ["P1"]
  selected_values := [("P1", [("RQ1", [("A1", [])])])]
  excluded_papers := [("P1", true)] }

/-- Non-excluded state where both attributes have empty selection lists. -/
def c6gui : GuiState := { baseGui with
  paper_keys := ["P1"]
  selected_values := [("P1", [("RQ1", [("A1", []), ("A2", [])])])] }

/-- Non-excluded state where A1 (scanned first) is empty and A2 has
`Discussion needed` selected with an empty live text input. -/
def c8gui : GuiState := { baseGui with
  paper_keys := ["P1"]
  selected_values := [("P1", [("RQ1", [("A1", []), ("A2", [discussionLabel])])])]
  discussion_text_inputs := [(discussionKey "P1" "RQ1" "A2", [])] }

/-- State whose only pair has `Discussion needed` selected with an empty
live text input. -/
def c8wGui : GuiState := { baseGui with
  paper_keys := ["P1"]
  selected_values := [("P1", [("RQ1", [("A1", [discussionLabel])])])]
  discussion_text_inputs := [(discussionKey "P1" "RQ1" "A1", [])] }

/-- Store where P1 is fully answered, P2 is excluded, and P3 is present
with every selection list empty. -/
def c4store : Store := [
  ("P1", { emptyRecord with responses := [("RQ1", [("Cat", ["Option A".toList])])] }),
  ("P2", { emptyRecord with excluded_from_full_text_review := true }),
  ("P3", { emptyRecord with responses := [("RQ1", [("Cat", [])])] })]

/-- State with `Other` selected and an empty tracked other-text (the
deliberately lossy edge case). -/
def c5gui : GuiState := { baseGui with
  paper_keys := ["P1"]
  selected_values := [("P1", [("RQ1", [("Cat", [otherLabel])])])]
  selected_Other_text := [("P1", [("RQ1", [("Cat", [])])])] }

/-- A non-excluded, locally valid state (empty schema validates). -/
def c9wGui : GuiState := { baseGui with
  paper_keys := ["P1"]
  selected_values := [("P1", [])] }

/-- A sanity-check collaborator that raises on every paper. -/
def c9sanErr : PaperRecord → Except String (List String) := fun _ => .error "boom"

/-- A sanity-check collaborator that reports one violation on every paper. -/
def c9sanBad : PaperRecord → Except String (List String) := fun _ => .ok ["v1"]

end SlrTool

namespace SlrTool

/-! ### Shared lemmas about the codec -/

theorem decode_snoc (l : List Str) (x : Str) :
    decodeSelections (l ++ [x]) = decodeStep (decodeSelections l) x := by
  simp [decodeSelections, List.foldl_append]

theorem isPrefixOf_append_self (l t : Str) : l.isPrefixOf (l ++ t) = true := by
  rw [List.isPrefixOf_iff_prefix]; exact List.prefix_append l t

theorem otherTag_not_pre_disc (t : Str) :
    otherTag.isPrefixOf (discussionTag ++ t) = false := by rfl

theorem otherEntry_ne_discLabel (t : Str) : otherTag ++ t ≠ discussionLabel := by
  intro h
  have h2 := congrArg List.head? h
  simp [otherTag, discussionLabel] at h2

theorem otherEntry_ne_otherLabel (t : Str) : otherTag ++ t ≠ otherLabel := by
  intro h
  have h2 := congrArg List.length h
  have h7 : otherTag.length = 7 := by decide
  have h5 : otherLabel.length = 5 := by decide
  rw [List.length_append, h7, h5] at h2
  omega

theorem discEntry_ne_otherLabel (t : Str) : discussionTag ++ t ≠ otherLabel := by
  intro h
  have h2 := congrArg List.head? h
  simp [discussionTag, otherLabel] at h2

theorem discEntry_ne_discLabel (t : Str) : discussionTag ++ t ≠ discussionLabel := by
  intro h
  have h2 := congrArg List.length h
  have h19 : discussionTag.length = 19 := by decide
  have h17 : discussionLabel.length = 17 := by decide
  rw [List.length_append, h19, h17] at h2
  omega

theorem decodeStep_otherEntry (acc : DecodedAttr) (t : Str) :
    decodeStep acc (otherTag ++ t) =
      { acc with selections := acc.selections ++ [otherLabel], otherText := t } := by
  have hd : (otherTag ++ t).drop 7 = t := by
    have h7 : (7 : Nat) = otherTag.length := by decide
    rw [h7, List.drop_left]
  simp [decodeStep, isPrefixOf_append_self, hd]

theorem decodeStep_discEntry (acc : DecodedAttr) (t : Str) :
    decodeStep acc (discussionTag ++ t) =
      { acc with
        selections := acc.selections ++ [discussionLabel]
        discussionText := some t } := by
  have hd : (discussionTag ++ t).drop 19 = t := by
    have h19 : (19 : Nat) = discussionTag.length := by decide
    rw [h19, List.drop_left]
  simp [decodeStep, otherTag_not_pre_disc, isPrefixOf_append_self, hd]

theorem c1_escape_roundtrip (sels : List Str) (ot : Str) (dt : Option Str) :
    (otherLabel ∈ sels → ot ≠ [] →
      otherLabel ∈ (decodeSelections (encodeSelections sels ot dt)).selections ∧
      (decodeSelections (encodeSelections sels ot dt)).otherText = ot) ∧
    (discussionLabel ∈ sels → dt.getD [] ≠ [] →
      discussionLabel ∈ (decodeSelections (encodeSelections sels ot dt)).selections ∧
      (decodeSelections (encodeSelections sels ot dt)).discussionText = some (dt.getD [])) := by
  constructor
  · intro hm ho
    unfold encodeSelections encodeOtherStep
    rw [if_pos ⟨hm, ho⟩]
    unfold encodeDiscussionStep
    by_cases hd : discussionLabel ∈ sels.erase otherLabel ++ [otherTag ++ ot] ∧ dt.getD [] ≠ []
    · rw [if_pos hd]
      have hdm : discussionLabel ∈ sels.erase otherLabel := by
        rcases List.mem_append.mp hd.1 with h | h
        · exact h
        · exact absurd (List.mem_singleton.mp h).symm (otherEntry_ne_discLabel ot)
      rw [List.erase_append_left _ hdm, decode_snoc, decode_snoc,
        decodeStep_otherEntry, decodeStep_discEntry]
      simp
    · rw [if_neg hd, decode_snoc, decodeStep_otherEntry]
      simp
  · intro hm hd
    unfold encodeSelections
    have key : ∀ s1 : List Str, discussionLabel ∈ s1 →
        discussionLabel ∈ (decodeSelections (encodeDiscussionStep s1 dt)).selections ∧
        (decodeSelections (encodeDiscussionStep s1 dt)).discussionText = some (dt.getD []) := by
      intro s1 h1
      unfold encodeDiscussionStep
      rw [if_pos ⟨h1, hd⟩, decode_snoc, decodeStep_discEntry]
      simp
    apply key
    unfold encodeOtherStep
    split
    · exact List.mem_append.mpr (Or.inl ((List.mem_erase_of_ne (by decide)).mpr hm))
    · exact hm

end SlrTool
namespace SlrTool

/-! ### Shared lemmas about association lists -/

theorem alookup_append {α : Type} (k : String) (m1 m2 : AL α) :
    alookup k (m1 ++ m2) = (alookup k m1).or (alookup k m2) := by
  induction m1 with
  | nil => rfl
  | cons p rest ih =>
    by_cases hp : p.1 = k <;> simp [alookup, hp, ih]

theorem alookup_map_replace {α : Type} (m : AL α) (k k' : String) (v : α)
    (h : k ≠ k') :
    alookup k' (m.map (fun p => if p.1 = k then (k, v) else p)) = alookup k' m := by
  induction m with
  | nil => rfl
  | cons p rest ih =>
    simp only [List.map_cons]
    by_cases hp : p.1 = k
    · rw [if_pos hp]
      unfold alookup
      rw [hp]
      simp [h, ih]
    · rw [if_neg hp]
      unfold alookup
      by_cases hk : p.1 = k' <;> simp [hk, ih]

theorem alookup_upsert_ne {α : Type} (m : AL α) (k k' : String) (v : α)
    (h : k ≠ k') : alookup k' (upsertA m k v) = alookup k' m := by
  unfold upsertA
  split
  · exact alookup_map_replace m k k' v h
  · rw [alookup_append]
    simp [alookup, h]

theorem alookup_none_keys {α : Type} (m : AL α) (k : String)
    (h : alookup k m = none) : ∀ p ∈ m, p.1 ≠ k := by
  induction m with
  | nil => intro p hp; cases hp
  | cons p rest ih =>
    intro q hq
    unfold alookup at h
    by_cases hp : p.1 = k
    · rw [if_pos hp] at h; cases h
    · rw [if_neg hp] at h
      cases hq with
      | head => exact hp
      | tail _ hq2 => exact ih h q hq2

theorem alookup_foldl_upsert {α β : Type} (f : String × β → α) (k : String)
    (l : List (String × β)) (init : AL α) (h : ∀ p ∈ l, p.1 ≠ k) :
    alookup k (l.foldl (fun out p => upsertA out p.1 (f p)) init) = alookup k init := by
  induction l generalizing init with
  | nil => rfl
  | cons p rest ih =>
    simp only [List.foldl_cons]
    rw [ih _ (fun q hq => h q (List.mem_cons_of_mem _ hq)),
      alookup_upsert_ne _ _ _ _ (h p (List.mem_cons_self _ _))]

theorem c2_merge_preserves_untouched (existing : Option Store) (g : GuiState)
    (b : String) (rec : PaperRecord)
    (hb : alookup b g.selected_values = none)
    (hrec : alookup b (existing.getD []) = some rec) :
    alookup b (performExport existing g) = some rec ∧
    performExport none g = performExport (some []) g := by
  constructor
  · unfold performExport
    rw [alookup_foldl_upsert _ _ _ _ (alookup_none_keys _ _ hb)]
    exact hrec
  · rfl

theorem c2_merge_preserves_untouched_witness :
    alookup "B" c2memGui.selected_values = none ∧
    alookup "B" ((some [("B", c2recB)] : Option Store).getD []) = some c2recB ∧
    alookup "B" (performExport (some [("B", c2recB)]) c2memGui) = some c2recB := by
  refine ⟨by decide, by decide, ?_⟩
  exact (c2_merge_preserves_untouched (some [("B", c2recB)]) c2memGui "B" c2recB
    (by decide) (by decide)).1

end SlrTool
namespace SlrTool

/-! ### Shared lemmas about the validation scan -/

theorem attrScan_eq_none_iff (g : GuiState) (e q : String) (attrs : AL AttrSpec) :
    attrScan g e q attrs = none ↔ ∀ p ∈ attrs, checkPair g e q p.1 p.2 = none := by
  induction attrs with
  | nil => simp [attrScan]
  | cons p rest ih =>
    unfold attrScan
    cases hc : checkPair g e q p.1 p.2 with
    | some v =>
      simp only [hc]
      constructor
      · intro h; cases h
      · intro h
        have := h p (List.mem_cons_self _ _)
        rw [hc] at this; cases this
    | none =>
      simp only [hc, ih]
      constructor
      · intro h r hr
        cases hr with
        | head => exact hc
        | tail _ hr2 => exact h r hr2
      · intro h r hr
        exact h r (List.mem_cons_of_mem _ hr)

theorem questionScan_eq_none_iff (g : GuiState) (e : String) (schema : Schema) :
    questionScan g e schema = none ↔
      ∀ qp ∈ schema, attrScan g e qp.1 qp.2 = none := by
  induction schema with
  | nil => simp [questionScan]
  | cons qp rest ih =>
    unfold questionScan
    cases hc : attrScan g e qp.1 qp.2 with
    | some v =>
      simp only [hc]
      constructor
      · intro h; cases h
      · intro h
        have := h qp (List.mem_cons_self _ _)
        rw [hc] at this; cases this
    | none =>
      simp only [hc, ih]
      constructor
      · intro h r hr
        cases hr with
        | head => exact hc
        | tail _ hr2 => exact h r hr2
      · intro h r hr
        exact h r (List.mem_cons_of_mem _ hr)

theorem checkPair_empty (g : GuiState) (e q a : String) (sp : AttrSpec)
    (h : (alookup3 e q a g.selected_values).getD [] = []) :
    checkPair g e q a sp = some (.MissingSelection q a) := by
  unfold checkPair
  rw [h]
  rfl

end SlrTool
namespace SlrTool

theorem c3_completeness_gating (g g2 : GuiState) (schema schema2 : Schema)
    (existing existing2 : Option Store)
    (sanity sanity2 : PaperRecord → Except String (List String))
    (q a : String) (attrs : AL AttrSpec) (sp : AttrSpec) :
    ((alookup (currentEntry g) g.excluded_papers).getD false = false →
      (q, attrs) ∈ schema → (a, sp) ∈ attrs →
      (alookup3 (currentEntry g) q a g.selected_values).getD [] = [] →
      (validateAll g schema (currentEntry g)).isSome = true ∧
      finishPaper g schema existing sanity = .blockedValidation) ∧
    ((alookup (currentEntry g2) g2.excluded_papers).getD false = true →
      validateAll g2 schema2 (currentEntry g2) = none ∧
      finishPaper g2 schema2 existing2 sanity2 = .advanced (g2.current_paper_index + 1)) := by
  constructor
  · intro hex hq ha hempty
    have hsome : (validateAll g schema (currentEntry g)).isSome = true := by
      unfold validateAll
      rw [hex]
      simp only [Bool.false_eq_true, if_false]
      cases hqs : questionScan g (currentEntry g) schema with
      | some v => rfl
      | none =>
        have hall := (questionScan_eq_none_iff g (currentEntry g) schema).mp hqs
        have hattrs := (attrScan_eq_none_iff g (currentEntry g) q attrs).mp (hall (q, attrs) hq)
        have := hattrs (a, sp) ha
        rw [checkPair_empty g (currentEntry g) q a sp hempty] at this
        cases this
    refine ⟨hsome, ?_⟩
    simp [finishPaper, hex, hsome]
  · intro hex
    have hv : validateAll g2 schema2 (currentEntry g2) = none := by
      unfold validateAll
      rw [hex]
      simp
    refine ⟨hv, ?_⟩
    simp [finishPaper, hex]

theorem c3_counterexample :
    validateAll c3gui schemaA1A2 "P1" = some (Violation.MissingDiscussionText "RQ1" "A1") ∧
    (alookup3 "P1" "RQ1" "A2" c3gui.selected_values).getD [] = [] ∧
    (alookup "P1" c3gui.excluded_papers).getD false = false := by
  decide

theorem c3_completeness_gating_witness :
    ((alookup (currentEntry c3wGui) c3wGui.excluded_papers).getD false = false ∧
     ("RQ1", [("A1", AttrSpec.plain [])]) ∈ schemaA1 ∧
     ("A1", AttrSpec.plain []) ∈ [("A1", AttrSpec.plain [])] ∧
     (alookup3 (currentEntry c3wGui) "RQ1" "A1" c3wGui.selected_values).getD [] = [] ∧
     (validateAll c3wGui schemaA1 (currentEntry c3wGui)).isSome = true ∧
     finishPaper c3wGui schemaA1 none (fun _ => .ok []) = .blockedValidation) ∧
    ((alookup (currentEntry c3exGui) c3exGui.excluded_papers).getD false = true ∧
     validateAll c3exGui schemaA1 (currentEntry c3exGui) = none ∧
     finishPaper c3exGui schemaA1 none (fun _ => .ok []) = .advanced (c3exGui.current_paper_index + 1)) := by
  have h := c3_completeness_gating c3wGui c3exGui schemaA1 schemaA1 none none
    (fun _ => .ok []) (fun _ => .ok []) "RQ1" "A1" [("A1", AttrSpec.plain [])] (.plain [])
  have h1 := h.1 (by decide) (by decide) (by decide) (by decide)
  have h2 := h.2 (by decide)
  exact ⟨⟨by decide, by decide, by decide, by decide, h1.1, h1.2⟩,
    ⟨by decide, h2.1, h2.2⟩⟩

end SlrTool
namespace SlrTool

/-! ### Lemmas relating the short-circuiting validator to the collecting one -/

theorem checkPair_eq_head (g : GuiState) (e q a : String) (sp : AttrSpec) :
    checkPair g e q a sp = (pairViolations g e q a sp).head? := by
  unfold checkPair pairViolations
  by_cases hsel : (alookup3 e q a g.selected_values).getD [] = []
  · simp [hsel, discussionViolation]
  · simp only [hsel, if_false, ite_false, ne_eq, not_false_eq_true, if_true, ite_true,
      List.nil_append]
    cases hd : discussionViolation g e q a ((alookup3 e q a g.selected_values).getD []) with
    | some v => simp
    | none =>
      simp only [Option.toList_none, List.nil_append]
      cases hm : mandatoryViolation g e q a sp <;> simp

theorem attrScan_eq_head (g : GuiState) (e q : String) (attrs : AL AttrSpec) :
    attrScan g e q attrs =
      (attrs.flatMap (fun ap => pairViolations g e q ap.1 ap.2)).head? := by
  induction attrs with
  | nil => rfl
  | cons ap rest ih =>
    unfold attrScan
    rw [List.flatMap_cons, List.head?_append, checkPair_eq_head g e q ap.1 ap.2]
    cases (pairViolations g e q ap.1 ap.2).head? with
    | some v => rfl
    | none => simpa using ih

theorem questionScan_eq_head (g : GuiState) (e : String) (schema : Schema) :
    questionScan g e schema =
      (schema.flatMap (fun qp => qp.2.flatMap
        (fun ap => pairViolations g e qp.1 ap.1 ap.2))).head? := by
  induction schema with
  | nil => rfl
  | cons qp rest ih =>
    unfold questionScan
    rw [List.flatMap_cons, List.head?_append, attrScan_eq_head]
    cases h : (qp.2.flatMap (fun ap => pairViolations g e qp.1 ap.1 ap.2)).head? with
    | some v => rfl
    | none => simpa using ih

theorem c6_first_violation (g : GuiState) (schema : Schema) (e : String) :
    validateAll g schema e = (collectAllViolations g schema e).head? := by
  unfold validateAll collectAllViolations
  by_cases hex : (alookup e g.excluded_papers).getD false = true
  · simp [hex]
  · simp only [hex, if_false]
    exact questionScan_eq_head g e schema

theorem c6_counterexample :
    validateAll c6gui schemaA1A2 "P1" = some (Violation.MissingSelection "RQ1" "A1") ∧
    collectAllViolations c6gui schemaA1A2 "P1" =
      [Violation.MissingSelection "RQ1" "A1", Violation.MissingSelection "RQ1" "A2"] := by
  decide

end SlrTool
namespace SlrTool

theorem alookup_map_replace_self {α : Type} (m : AL α) (k : String) (v : α)
    (h : containsKey k m = true) :
    alookup k (m.map (fun p => if p.1 = k then (k, v) else p)) = some v := by
  induction m with
  | nil => cases h
  | cons p rest ih =>
    simp only [List.map_cons]
    by_cases hp : p.1 = k
    · rw [if_pos hp]
      unfold alookup
      simp
    · rw [if_neg hp]
      unfold alookup
      rw [if_neg hp]
      have h2 : containsKey k rest = true := by
        unfold containsKey alookup at h
        rw [if_neg hp] at h
        exact h
      exact ih h2

theorem alookup_upsert_self {α : Type} (m : AL α) (k : String) (v : α) :
    alookup k (upsertA m k v) = some v := by
  unfold upsertA
  by_cases hc : containsKey k m = true
  · rw [if_pos hc]
    exact alookup_map_replace_self m k v hc
  · rw [if_neg hc, alookup_append]
    have hnone : alookup k m = none := by
      cases h : alookup k m with
      | none => rfl
      | some w => exact absurd (by unfold containsKey; rw [h]; rfl) hc
    rw [hnone]
    simp [alookup]

theorem attrScan_append_pass (g : GuiState) (e q : String) (l1 l2 : AL AttrSpec)
    (h : ∀ p ∈ l1, checkPair g e q p.1 p.2 = none) :
    attrScan g e q (l1 ++ l2) = attrScan g e q l2 := by
  induction l1 with
  | nil => rfl
  | cons p rest ih =>
    obtain ⟨a1, sp1⟩ := p
    rw [List.cons_append]
    show (match checkPair g e q a1 sp1 with
      | some v => some v
      | none => attrScan g e q (rest ++ l2)) = attrScan g e q l2
    rw [h ⟨a1, sp1⟩ (List.mem_cons_self _ _)]
    exact ih (fun r hr => h r (List.mem_cons_of_mem _ hr))

theorem questionScan_append_pass (g : GuiState) (e : String) (l1 l2 : Schema)
    (h : ∀ qp ∈ l1, attrScan g e qp.1 qp.2 = none) :
    questionScan g e (l1 ++ l2) = questionScan g e l2 := by
  induction l1 with
  | nil => rfl
  | cons qp rest ih =>
    obtain ⟨q1, attrs1⟩ := qp
    rw [List.cons_append]
    show (match attrScan g e q1 attrs1 with
      | some v => some v
      | none => questionScan g e (rest ++ l2)) = questionScan g e l2
    rw [h ⟨q1, attrs1⟩ (List.mem_cons_self _ _)]
    exact ih (fun r hr => h r (List.mem_cons_of_mem _ hr))

theorem c8_discussion_text_requirement (g : GuiState) (e q a : String)
    (sp : AttrSpec) (t t2 : Str)
    (hsel : discussionLabel ∈ (alookup3 e q a g.selected_values).getD [])
    (hw : alookup (discussionKey e q a) g.discussion_text_inputs = some t)
    (ht : pyStrip t = []) :
    checkPair g e q a sp = some (.MissingDiscussionText q a) ∧
    (pyStrip t2 ≠ [] →
      checkPair (setDiscussionInput g (discussionKey e q a) t2) e q a sp ≠
        some (.MissingDiscussionText q a)) ∧
    (∀ q2 a2 sp2, discussionKey e q2 a2 ≠ discussionKey e q a →
      checkPair (setDiscussionInput g (discussionKey e q a) t2) e q2 a2 sp2 =
        checkPair g e q2 a2 sp2) ∧
    (∀ pre post attrsPre attrsPost,
      (alookup e g.excluded_papers).getD false = false →
      (∀ qp ∈ pre, attrScan g e qp.1 qp.2 = none) →
      (∀ ap ∈ attrsPre, checkPair g e q ap.1 ap.2 = none) →
      validateAll g (pre ++ (q, attrsPre ++ (a, sp) :: attrsPost) :: post) e =
        some (.MissingDiscussionText q a)) := by
  have hne : (alookup3 e q a g.selected_values).getD [] ≠ [] := List.ne_nil_of_mem hsel
  have hmnd : ∀ (g2 : GuiState), mandatoryViolation g2 e q a sp ≠
      some (.MissingDiscussionText q a) := by
    intro g2
    unfold mandatoryViolation
    split
    · split
      · split <;> simp
      · simp
    · simp
  have hcp : checkPair g e q a sp = some (.MissingDiscussionText q a) := by
    simp only [checkPair, discussionViolation]
    rw [if_neg hne, if_pos hsel, hw]
    simp [ht]
  refine ⟨hcp, ?_, ?_, ?_⟩
  · intro ht2
    have hself := alookup_upsert_self g.discussion_text_inputs (discussionKey e q a) t2
    have heq : checkPair (setDiscussionInput g (discussionKey e q a) t2) e q a sp =
        mandatoryViolation (setDiscussionInput g (discussionKey e q a) t2) e q a sp := by
      simp only [checkPair, discussionViolation, setDiscussionInput]
      rw [if_neg hne, if_pos hsel, hself]
      simp [ht2]
    rw [heq]
    exact hmnd _
  · intro q2 a2 sp2 hk
    simp only [checkPair, discussionViolation, mandatoryViolation, setDiscussionInput]
    rw [alookup_upsert_ne _ _ _ _ (Ne.symm hk)]
  · intro pre post attrsPre attrsPost hex hpre hattrs
    unfold validateAll
    rw [hex]
    simp only [Bool.false_eq_true, if_false]
    rw [questionScan_append_pass g e pre _ hpre]
    unfold questionScan
    rw [attrScan_append_pass g e q attrsPre _ hattrs]
    unfold attrScan
    rw [hcp]

theorem c8_counterexample :
    validateAll c8gui schemaA1A2 "P1" = some (Violation.MissingSelection "RQ1" "A1") ∧
    discussionLabel ∈ (alookup3 "P1" "RQ1" "A2" c8gui.selected_values).getD [] ∧
    alookup (discussionKey "P1" "RQ1" "A2") c8gui.discussion_text_inputs = some [] ∧
    pyStrip [] = [] ∧
    (alookup "P1" c8gui.excluded_papers).getD false = false := by
  decide

theorem c8_discussion_text_requirement_witness :
    (discussionLabel ∈ (alookup3 "P1" "RQ1" "A1" c8wGui.selected_values).getD [] ∧
     alookup (discussionKey "P1" "RQ1" "A1") c8wGui.discussion_text_inputs = some [] ∧
     pyStrip ([] : Str) = []) ∧
    checkPair c8wGui "P1" "RQ1" "A1" (.plain []) =
      some (Violation.MissingDiscussionText "RQ1" "A1") ∧
    checkPair (setDiscussionInput c8wGui (discussionKey "P1" "RQ1" "A1") "ok".toList)
        "P1" "RQ1" "A1" (.plain []) ≠
      some (Violation.MissingDiscussionText "RQ1" "A1") ∧
    validateAll c8wGui schemaA1 "P1" =
      some (Violation.MissingDiscussionText "RQ1" "A1") := by
  have h := c8_discussion_text_requirement c8wGui "P1" "RQ1" "A1" (.plain [])
    [] "ok".toList (by decide) (by decide) (by decide)
  refine ⟨⟨by decide, by decide, by decide⟩, h.1, h.2.1 (by decide), ?_⟩
  have h4 := h.2.2.2 [] [] [] [] (by decide)
    (fun qp hqp => absurd hqp (List.not_mem_nil qp))
    (fun ap hap => absurd hap (List.not_mem_nil ap))
  exact h4

end SlrTool
namespace SlrTool

/-! ### The resume scan -/

theorem scanPapers_eq_findIdx (s : Store) (keys : List String) :
    scanPapers s keys = keys.findIdx (unprocessedSpec s) := by
  induction keys with
  | nil => rfl
  | cons k rest ih =>
    rw [List.findIdx_cons]
    cases h : alookup k s with
    | none =>
      have hspec : unprocessedSpec s k = true := by
        unfold unprocessedSpec
        rw [h]
      unfold scanPapers
      rw [h, hspec]
      rfl
    | some pd =>
      have hspec : unprocessedSpec s k =
          (!pd.excluded_from_full_text_review && isEmptyResponses pd.responses) := by
        unfold unprocessedSpec
        rw [h]
      by_cases he : pd.excluded_from_full_text_review = true
      · rw [he] at hspec
        simp only [Bool.not_true, Bool.false_and] at hspec
        unfold scanPapers
        rw [h]
        dsimp only
        rw [if_pos he, hspec, ih]
        dsimp only [cond]
        omega
      · have he2 : pd.excluded_from_full_text_review = false :=
          Bool.not_eq_true _ ▸ (by simpa using he)
        rw [he2] at hspec
        simp only [Bool.not_false, Bool.true_and] at hspec
        by_cases hemp : isEmptyResponses pd.responses = true
        · rw [hemp] at hspec
          unfold scanPapers
          rw [h]
          dsimp only
          rw [if_neg he, if_pos hemp, hspec]
          rfl
        · have hemp2 : isEmptyResponses pd.responses = false := by simpa using hemp
          rw [hemp2] at hspec
          unfold scanPapers
          rw [h]
          dsimp only
          rw [if_neg he, if_neg hemp, hspec, ih]
          dsimp only [cond]
          omega

theorem findIdx_eq_length_of_none {α : Type} (p : α → Bool) (l : List α)
    (h : ∀ x ∈ l, p x = false) : l.findIdx p = l.length := by
  induction l with
  | nil => rfl
  | cons x rest ih =>
    rw [List.findIdx_cons, h x (List.mem_cons_self _ _)]
    simp [ih (fun y hy => h y (List.mem_cons_of_mem _ hy))]

theorem c4_resume_scan (user : String) (keys : List String)
    (sess : Option SessionJson) (s : Store)
    (hs : sessionResume user keys.length sess = none) :
    findFirstUnprocessedPaper user keys sess (some s) =
      keys.findIdx (unprocessedSpec s) ∧
    ((∀ k ∈ keys, unprocessedSpec s k = false) →
      findFirstUnprocessedPaper user keys sess (some s) = keys.length) := by
  have h1 : findFirstUnprocessedPaper user keys sess (some s) = scanPapers s keys := by
    unfold findFirstUnprocessedPaper
    rw [hs]
  refine ⟨h1.trans (scanPapers_eq_findIdx s keys), fun hall => ?_⟩
  rw [h1, scanPapers_eq_findIdx]
  exact findIdx_eq_length_of_none _ _ hall

theorem c4_resume_scan_witness :
    sessionResume "Moritz" (["P1", "P2", "P3"] : List String).length none = none ∧
    findFirstUnprocessedPaper "Moritz" ["P1", "P2", "P3"] none (some c4store) = 2 ∧
    (["P1", "P2", "P3"] : List String).findIdx (unprocessedSpec c4store) = 2 ∧
    findFirstUnprocessedPaper "Moritz" ["P1", "P2"] none (some c4store) = 2 := by
  refine ⟨by decide, ?_, by decide, ?_⟩
  · exact ((c4_resume_scan "Moritz" ["P1", "P2", "P3"] none c4store rfl).1).trans (by decide)
  · exact ((c4_resume_scan "Moritz" ["P1", "P2"] none c4store rfl).2
      (by decide)).trans (by decide)

end SlrTool
namespace SlrTool

/-! ### The persisted-representation invariant -/

theorem c5_no_raw_labels (sels : List Str) (ot : Str) (dt : Option Str)
    (hnd : sels.Nodup) :
    (ot ≠ [] → otherLabel ∉ encodeSelections sels ot dt) ∧
    (dt.getD [] ≠ [] → discussionLabel ∉ encodeSelections sels ot dt) := by
  have hcount : ∀ x, List.count x sels ≤ 1 := by
    have hcount0 := List.nodup_iff_count_le_one.mp hnd
    have hinst : (instBEqOfDecidableEq : BEq Str) = List.instBEq :=
      lawful_beq_subsingleton _ _
    rw [hinst] at hcount0
    exact hcount0
  have hA1 : ot ≠ [] → otherLabel ∉ encodeOtherStep sels ot := by
    intro ho
    unfold encodeOtherStep
    by_cases hm : otherLabel ∈ sels
    · rw [if_pos ⟨hm, ho⟩]
      intro hmem
      rcases List.mem_append.mp hmem with h1 | h1
      · have hp := List.count_pos_iff.mpr h1
        rw [List.count_erase_self] at hp
        have h2 := hcount otherLabel
        omega
      · exact otherEntry_ne_otherLabel ot (List.mem_singleton.mp h1).symm
    · rw [if_neg (fun hc => hm hc.1)]
      exact hm
  have hA2 : ∀ s1 : List Str, otherLabel ∉ s1 →
      otherLabel ∉ encodeDiscussionStep s1 dt := by
    intro s1 h1
    unfold encodeDiscussionStep
    split
    · intro hmem
      rcases List.mem_append.mp hmem with h2 | h2
      · exact h1 (List.erase_subset _ _ h2)
      · exact discEntry_ne_otherLabel _ (List.mem_singleton.mp h2).symm
    · exact h1
  have hBcount : List.count discussionLabel (encodeOtherStep sels ot) ≤ 1 := by
    unfold encodeOtherStep
    split
    · rw [List.count_append]
      have h2 := hcount discussionLabel
      have h3 : List.count discussionLabel (sels.erase otherLabel) ≤
          List.count discussionLabel sels := by
        rw [List.count_erase]
        omega
      have h4 : List.count discussionLabel [otherTag ++ ot] = 0 :=
        List.count_eq_zero.mpr
          (fun hx => otherEntry_ne_discLabel ot (List.mem_singleton.mp hx).symm)
      omega
    · exact hcount discussionLabel
  refine ⟨fun ho => hA2 _ (hA1 ho), fun hdt => ?_⟩
  show discussionLabel ∉ encodeDiscussionStep (encodeOtherStep sels ot) dt
  unfold encodeDiscussionStep
  by_cases hm : discussionLabel ∈ encodeOtherStep sels ot
  · rw [if_pos ⟨hm, hdt⟩]
    intro hmem
    rcases List.mem_append.mp hmem with h1 | h1
    · have hp := List.count_pos_iff.mpr h1
      rw [List.count_erase_self] at hp
      omega
    · exact discEntry_ne_discLabel _ (List.mem_singleton.mp h1).symm
  · rw [if_neg (fun hc => hm hc.1)]
    exact hm

theorem c5_counterexample :
    otherLabel ∈ ((alookup "Cat" ((alookup "RQ1"
      (((alookup "P1" (performExport none c5gui)).getD emptyRecord).responses)).getD
        [])).getD []) ∧
    alookup3 "P1" "RQ1" "Cat" c5gui.selected_Other_text = some [] ∧
    otherLabel ∈ ((alookup3 "P1" "RQ1" "Cat" c5gui.selected_values).getD []) := by
  decide

theorem c5_no_raw_labels_witness :
    ([otherLabel, discussionLabel] : List Str).Nodup ∧
    ("x".toList : Str) ≠ [] ∧
    ((some "y".toList : Option Str).getD [] ≠ []) ∧
    otherLabel ∉ encodeSelections [otherLabel, discussionLabel] "x".toList
      (some "y".toList) ∧
    discussionLabel ∉ encodeSelections [otherLabel, discussionLabel] "x".toList
      (some "y".toList) := by
  have h := c5_no_raw_labels [otherLabel, discussionLabel] "x".toList
    (some "y".toList) (by decide)
  exact ⟨by decide, by decide, by decide, h.1 (by decide), h.2 (by decide)⟩

end SlrTool
namespace SlrTool

/-! ### Round-trip witness -/

theorem c1_escape_roundtrip_witness :
    otherLabel ∈ ([otherLabel, discussionLabel] : List Str) ∧
    ("ad-hoc: x".toList : Str) ≠ [] ∧
    ((some "w:z".toList : Option Str).getD [] ≠ []) ∧
    (otherLabel ∈ (decodeSelections (encodeSelections [otherLabel, discussionLabel]
        "ad-hoc: x".toList (some "w:z".toList))).selections ∧
      (decodeSelections (encodeSelections [otherLabel, discussionLabel]
        "ad-hoc: x".toList (some "w:z".toList))).otherText = "ad-hoc: x".toList) ∧
    (discussionLabel ∈ (decodeSelections (encodeSelections [otherLabel, discussionLabel]
        "ad-hoc: x".toList (some "w:z".toList))).selections ∧
      (decodeSelections (encodeSelections [otherLabel, discussionLabel]
        "ad-hoc: x".toList (some "w:z".toList))).discussionText = some "w:z".toList) := by
  refine ⟨by decide, by decide, by decide, ?_, ?_⟩
  · exact (c1_escape_roundtrip [otherLabel, discussionLabel] "ad-hoc: x".toList
      (some "w:z".toList)).1 (by decide) (by decide)
  · exact (c1_escape_roundtrip [otherLabel, discussionLabel] "ad-hoc: x".toList
      (some "w:z".toList)).2 (by decide) (by decide)

/-! ### Export write failure -/

theorem c7_counterexample :
    runExportWrite (some "OLD".toList) "NEWSTORE".toList (.ioErrorAfter 3) =
      (some "NEW".toList, false) ∧
    some ("NEW".toList : Str) ≠ some "OLD".toList ∧
    some ("NEW".toList : Str) ≠ some "NEWSTORE".toList := by
  decide

theorem c7_write_failure (prior : Option Str) (content : Str) (n : Nat) :
    ((runExportWrite prior content .success).2 = true ∧
      (runExportWrite prior content (.ioErrorAfter n)).2 = false) ∧
    (runExportWrite prior content (.ioErrorAfter n)).1 = some (content.take n) ∧
    (n < content.length →
      (runExportWrite prior content (.ioErrorAfter n)).1 ≠ some content) := by
  refine ⟨⟨rfl, rfl⟩, rfl, fun h hcontra => ?_⟩
  have h2 : content.take n = content := by
    simpa [runExportWrite] using hcontra
  have h3 := congrArg List.length h2
  rw [List.length_take] at h3
  omega

theorem c7_write_failure_witness :
    (3 < ("NEWSTORE".toList : Str).length) ∧
    (runExportWrite (some "OLD".toList) "NEWSTORE".toList (WriteOutcome.ioErrorAfter 3)).2
      = false ∧
    (runExportWrite (some "OLD".toList) "NEWSTORE".toList (WriteOutcome.ioErrorAfter 3)).1
      ≠ some "NEWSTORE".toList := by
  refine ⟨by decide, ?_, ?_⟩
  · exact ((c7_write_failure (some "OLD".toList) "NEWSTORE".toList 3).1).2
  · exact (c7_write_failure (some "OLD".toList) "NEWSTORE".toList 3).2.2 (by decide)

/-! ### Sanity-check gating -/

theorem c9_sanity_fail_closed (g : GuiState) (schema : Schema)
    (existing : Option Store) (sanity : PaperRecord → Except String (List String))
    (hex : (alookup (currentEntry g) g.excluded_papers).getD false = false)
    (hv : validateAll g schema (currentEntry g) = none) :
    (∀ msg, sanity ((alookup (currentEntry g) (performExport existing g)).getD
        emptyRecord) = .error msg →
      finishPaper g schema existing sanity = .sanityError msg ∧
      ∀ i, finishPaper g schema existing sanity ≠ .advanced i) ∧
    (∀ vs, vs ≠ [] →
      sanity ((alookup (currentEntry g) (performExport existing g)).getD
        emptyRecord) = .ok vs →
      finishPaper g schema existing sanity = .blockedSanity vs ∧
      ∀ i, finishPaper g schema existing sanity ≠ .advanced i) := by
  constructor
  · intro msg hs
    have hfp : finishPaper g schema existing sanity = .sanityError msg := by
      simp [finishPaper, hex, hv, hs]
    refine ⟨hfp, fun i hcontra => ?_⟩
    rw [hfp] at hcontra
    cases hcontra
  · intro vs hvs hs
    have hfp : finishPaper g schema existing sanity = .blockedSanity vs := by
      simp [finishPaper, hex, hv, hs, hvs]
    refine ⟨hfp, fun i hcontra => ?_⟩
    rw [hfp] at hcontra
    cases hcontra

theorem c9_sanity_fail_closed_witness :
    ((alookup (currentEntry c9wGui) c9wGui.excluded_papers).getD false = false ∧
     validateAll c9wGui [] (currentEntry c9wGui) = none) ∧
    (finishPaper c9wGui [] none c9sanErr = .sanityError "boom" ∧
     ∀ i, finishPaper c9wGui [] none c9sanErr ≠ .advanced i) ∧
    (finishPaper c9wGui [] none c9sanBad = .blockedSanity ["v1"] ∧
     ∀ i, finishPaper c9wGui [] none c9sanBad ≠ .advanced i) := by
  refine ⟨⟨by decide, by decide⟩, ?_, ?_⟩
  · exact (c9_sanity_fail_closed c9wGui [] none c9sanErr (by decide) (by decide)).1
      "boom" rfl
  · exact (c9_sanity_fail_closed c9wGui [] none c9sanBad (by decide) (by decide)).2
      ["v1"] (by decide) rfl

/-! ### Session marker -/

theorem c10_session_save (user : String) (keys : List String) (idx : Nat)
    (fb : Option SessionJson) :
    (∀ ioe : Bool, (loadPaperSession keys user idx fb ioe).1 =
      (loadPaperSession keys user idx fb false).1) ∧
    saveSessionState fb user keys idx true = fb ∧
    saveSessionState fb user keys idx false =
      some ⟨user, some (idx : Int), keys[idx]?⟩ ∧
    (keys.length ≤ idx →
      saveSessionState fb user keys idx false = some ⟨user, some (idx : Int), none⟩) := by
  refine ⟨?_, rfl, rfl, fun h => ?_⟩
  · intro ioe
    unfold loadPaperSession
    split <;> rfl
  · unfold saveSessionState
    rw [List.getElem?_eq_none h]
    rfl

theorem c10_session_save_witness :
    (["P1"] : List String).length ≤ 1 ∧
    saveSessionState none "Moritz" ["P1"] 1 false = some ⟨"Moritz", some 1, none⟩ ∧
    saveSessionState none "Moritz" ["P1"] 1 true = none ∧
    (loadPaperSession ["P1"] "Moritz" 0 none true).1 =
      (loadPaperSession ["P1"] "Moritz" 0 none false).1 := by
  have h := c10_session_save "Moritz" ["P1"] 1 none
  exact ⟨by decide, h.2.2.2 (by decide), h.2.1, (c10_session_save "Moritz" ["P1"] 0 none).1 true⟩

end SlrTool
